import Mathlib

/-!
Shallow embedding of the clip task orchestration engine of web2obsidian:
the task data model and persisted history (src/types/task.ts), the task
manager operations over the stored history (src/background/task-manager.ts),
and the clip pipeline (src/background/clip-pipeline.ts).  External
collaborators (extractor, LLM transform gateway, vault writers, template
renderer) are modelled as inputs: their responses are fields of an
environment record, per the external contracts of the specification.
JavaScript falsiness of optional strings is modelled by the empty string;
JavaScript in-place mutation of a record found in a list is modelled by
replacing the first matching element.
-/

namespace Web2Obsidian

/-! Data model, from src/types/task.ts -/

inductive TaskStatus
  | pending
  | running
  | success
  | error
  | cancelled
deriving DecidableEq

inductive TaskStep
  | extracting
  | llm_content
  | llm_tags
  | saving
  | done
deriving DecidableEq

structure TaskPageInfo where
  title : String
  url : String
  domain : String
  isYouTube : Bool
deriving DecidableEq

structure TaskResult where
  path : String
deriving DecidableEq

structure LLMEnabled where
  content : Bool
  tags : Bool
deriving DecidableEq

structure ClipTask where
  id : String
  status : TaskStatus
  step : Option TaskStep
  pageInfo : TaskPageInfo
  templateName : String
  createdAt : Nat
  completedAt : Option Nat := none
  result : Option TaskResult := none
  error : Option String := none
  llmEnabled : LLMEnabled
deriving DecidableEq

structure TaskHistory where
  tasks : List ClipTask
  maxTasks : Nat
deriving DecidableEq

def createDefaultTaskHistory : TaskHistory :=
  { tasks := [], maxTasks := 10 }

/-! Template data model, from src/types/template.ts.  The inputType of a
property is optional in the source; the empty string models an absent
inputType. -/

structure TemplateProperty where
  key : String
  value : String
  inputType : String
deriving DecidableEq

structure Template where
  id : String
  name : String
  folder : String
  filename : String
  properties : List TemplateProperty
  content : String
  useLLM : Bool
  llmGenerateContent : Bool
  llmPrompt : String
  llmGenerateTags : Bool
  llmTagsPrompt : String
deriving DecidableEq

structure TemplateSet where
  id : String
  name : String
  webTemplate : Template
  youtubeTemplate : Template
deriving DecidableEq

structure TemplateSettings where
  sets : List TemplateSet
  defaultSetId : String
deriving DecidableEq

/-! Task manager operations, from src/background/task-manager.ts.  Each
operation reads the stored history, mutates the first record whose id
matches, writes the history back and broadcasts the mutated record.  The
pure content of one such operation is a function of the history; the
broadcast is returned alongside (none when no broadcast was emitted). -/

def modifyFirst {α : Type} (p : α → Bool) (f : α → α) : List α → List α
  | [] => []
  | x :: xs => if p x then f x :: xs else x :: modifyFirst p f xs

def findIndex {α : Type} (p : α → Bool) : List α → Option Nat
  | [] => none
  | x :: xs => if p x then some 0 else (findIndex p xs).map (· + 1)

def upsertTask (history : TaskHistory) (task : ClipTask) : TaskHistory :=
  match findIndex (fun t => t.id == task.id) history.tasks with
  | some i => { history with tasks := history.tasks.set i task }
  | none =>
      let tasks := task :: history.tasks
      { history with
        tasks := if tasks.length > history.maxTasks
                 then tasks.take history.maxTasks else tasks }

/-- Replacement of the first record matching the task id, modelling the
in-place mutation of the record found in the stored list. -/
def histSet (history : TaskHistory) (taskId : String) (t2 : ClipTask) :
    TaskHistory :=
  { history with
    tasks := modifyFirst (fun u => u.id == taskId) (fun _ => t2) history.tasks }

/-- Field update performed by updateTaskStep on the found record. -/
def taskAtStep (t : ClipTask) (step : TaskStep) : ClipTask :=
  { t with step := some step }

/-- Field updates performed by completeTask on the found record. -/
def taskCompleted (t : ClipTask) (result : TaskResult) (now : Nat) : ClipTask :=
  { t with
    status := TaskStatus.success
    step := some TaskStep.done
    completedAt := some now
    result := some result }

/-- Field updates performed by failTask on the found record. -/
def taskFailed (t : ClipTask) (msg : String) (now : Nat) : ClipTask :=
  { t with
    status := TaskStatus.error
    completedAt := some now
    error := some msg }

/-- Field updates performed by cancelTask on the found running record. -/
def taskCancelled (t : ClipTask) (now : Nat) : ClipTask :=
  { t with
    status := TaskStatus.cancelled
    completedAt := some now }

def applyToTask (history : TaskHistory) (taskId : String)
    (g : ClipTask → ClipTask) : TaskHistory × Option ClipTask :=
  match history.tasks.find? (fun t => t.id == taskId) with
  | none => (history, none)
  | some t => (histSet history taskId (g t), some (g t))

def updateTaskStep (history : TaskHistory) (taskId : String) (step : TaskStep) :
    TaskHistory × Option ClipTask :=
  applyToTask history taskId (fun t => taskAtStep t step)

def completeTask (history : TaskHistory) (taskId : String)
    (result : TaskResult) (now : Nat) : TaskHistory × Option ClipTask :=
  applyToTask history taskId (fun t => taskCompleted t result now)

def failTask (history : TaskHistory) (taskId : String) (msg : String)
    (now : Nat) : TaskHistory × Option ClipTask :=
  applyToTask history taskId (fun t => taskFailed t msg now)

/-! Cancellation, from src/background/task-manager.ts (cancelTask).  The
registry models the keys of the in-memory map of AbortControllers; the
aborted flag records whether a controller was signalled. -/

structure CancelOutcome where
  registry : List String
  history : TaskHistory
  broadcast : Option ClipTask
  returned : Bool
  aborted : Bool
deriving DecidableEq

def cancelTask (registry : List String) (history : TaskHistory)
    (taskId : String) (now : Nat) : CancelOutcome :=
  let hasController := registry.contains taskId
  let registry2 :=
    if hasController then registry.filter (fun x => !(x == taskId)) else registry
  match history.tasks.find? (fun t => t.id == taskId) with
  | some t =>
      if t.status = TaskStatus.running then
        { registry := registry2
          history := histSet history taskId (taskCancelled t now)
          broadcast := some (taskCancelled t now)
          returned := true
          aborted := hasController }
      else
        { registry := registry2, history := history, broadcast := none,
          returned := false, aborted := hasController }
  | none =>
      { registry := registry2, history := history, broadcast := none,
        returned := false, aborted := hasController }

/-! External response shapes.  LLMResponse is from src/services/llm
(transform gateway contract: always returns a result record); SaveResult
covers the synchronous REST writer response (src/services/obsidian-api.ts)
and the URI handoff writer response.  Absent optional string fields are
modelled by the empty string, matching JavaScript falsiness checks. -/

structure LLMResponse where
  success : Bool
  content : String := ""
  error : String := ""
deriving DecidableEq

structure SaveResult where
  success : Bool
  path : String := ""
  error : String := ""
deriving DecidableEq

/-- Obsidian API settings as consumed by the pipeline: the enabled flag
selecting the synchronous REST writing mode and the API key. -/
structure ObsidianApiSettings where
  enabled : Bool
  apiKey : String
deriving DecidableEq

/-! Tag merge, from src/background/clip-pipeline.ts lines 239-263.  JSON
parsing and serialization of tag arrays are host facilities; they enter the
model as the parameters parse and stringify.  setDedup models the
JavaScript spread of a Set built from a list: it keeps the first occurrence
of every element in order. -/

/-- Model of the JavaScript String.prototype.trim host function: drop
whitespace from both ends. -/
def jsTrim (s : String) : String :=
  String.mk (((s.data.dropWhile Char.isWhitespace).reverse.dropWhile
    Char.isWhitespace).reverse)

def setDedupAux (seen : List String) : List String → List String
  | [] => []
  | x :: xs =>
      if seen.contains x then setDedupAux seen xs
      else x :: setDedupAux (x :: seen) xs

def setDedup (l : List String) : List String := setDedupAux [] l

/-- Pre-existing tags read from the tags property value: the trimmed value
is parsed unless it is empty or the empty JSON array; a parse failure is
treated as no pre-existing tags. -/
def existingTagsOf (parse : String → Option (List String)) (value : String) :
    List String :=
  let v := jsTrim value
  if v ≠ "" ∧ v ≠ "[]" then (parse v).getD [] else []

/-- Tags obtained from the LLM response: a response that fails to parse as
a tag list is treated as a single tag. -/
def newTagsOf (parse : String → Option (List String)) (generated : String) :
    List String :=
  (parse generated).getD [generated]

/-- The merged value written back to the tags property: the de-duplicated
union of pre-existing and returned tags, serialized. -/
def mergeTagsValue (parse : String → Option (List String))
    (stringify : List String → String) (value generated : String) : String :=
  stringify (setDedup (existingTagsOf parse value ++ newTagsOf parse generated))

/-! Pipeline, from src/background/clip-pipeline.ts (runClipTask).  The
pipeline is a sequential transformer of the stored history; the environment
record carries the responses of the external calls and whether the
cancellation signal is already aborted at each of the three checkpoints of
the source.  Broadcasts emitted by the task manager operations are
collected as events. -/

structure PipelineEnv where
  llmContent : LLMResponse
  llmTags : LLMResponse
  saveRest : SaveResult
  saveUri : SaveResult
  abortBeforeContent : Bool := false
  abortBeforeTags : Bool := false
  abortBeforeSaving : Bool := false
deriving DecidableEq

structure RunOutcome where
  history : TaskHistory
  events : List ClipTask
  contentToUse : Option String
  savedViaUri : Option Bool
  notificationKey : Option String
  properties : List TemplateProperty
  customVars : List (String × String)
deriving DecidableEq

/-- Intermediate state after the two optional LLM steps. -/
structure MidState where
  history : TaskHistory
  events : List ClipTask
  properties : List TemplateProperty
  customVars : List (String × String)
  llmContentOutput : Option String
  ctxContent : String
deriving DecidableEq

/-- Outcome of an early return: the pipeline exits without transitioning
the task (the cancellation already set the terminal state). -/
def earlyOutcome (history : TaskHistory) (events : List ClipTask)
    (properties : List TemplateProperty)
    (customVars : List (String × String)) : RunOutcome :=
  { history := history, events := events, contentToUse := none,
    savedViaUri := none, notificationKey := none,
    properties := properties, customVars := customVars }

/-- The optional LLM content step followed by the optional LLM tag step,
clip-pipeline.ts lines 163-270.  Sum.inr is the early return taken when
the abort signal is observed at a checkpoint. -/
def llmPhase (parse : String → Option (List String))
    (stringify : List String → String) (taskId : String) (template : Template)
    (content0 : String) (customVars0 : List (String × String))
    (env : PipelineEnv) (h0 : TaskHistory) : MidState ⊕ RunOutcome :=
  if template.useLLM && template.llmGenerateContent && env.abortBeforeContent then
    Sum.inr (earlyOutcome h0 [] template.properties customVars0)
  else
    let s1 : TaskHistory × List ClipTask × Option String × String :=
      if template.useLLM && template.llmGenerateContent then
        let r1 := updateTaskStep h0 taskId TaskStep.llm_content
        let r := env.llmContent
        if r.success && r.content != "" then
          (r1.1, r1.2.toList, some r.content, r.content)
        else
          (r1.1, r1.2.toList, none, content0)
      else
        (h0, [], none, content0)
    if template.useLLM && template.llmGenerateTags && env.abortBeforeTags then
      Sum.inr (earlyOutcome s1.1 s1.2.1 template.properties customVars0)
    else
      if template.useLLM && template.llmGenerateTags then
        let r2 := updateTaskStep s1.1 taskId TaskStep.llm_tags
        let r := env.llmTags
        if r.success && r.content != "" then
          let generated := jsTrim r.content
          let cv := customVars0 ++ [("llmTags", generated)]
          let props :=
            modifyFirst (fun p => p.key == "tags" && p.inputType == "tags")
              (fun p => { p with
                          value := mergeTagsValue parse stringify p.value generated })
              template.properties
          Sum.inl { history := r2.1, events := s1.2.1 ++ r2.2.toList,
                    properties := props, customVars := cv,
                    llmContentOutput := s1.2.2.1, ctxContent := s1.2.2.2 }
        else
          Sum.inl { history := r2.1, events := s1.2.1 ++ r2.2.toList,
                    properties := template.properties, customVars := customVars0,
                    llmContentOutput := s1.2.2.1, ctxContent := s1.2.2.2 }
      else
        Sum.inl { history := s1.1, events := s1.2.1,
                  properties := template.properties, customVars := customVars0,
                  llmContentOutput := s1.2.2.1, ctxContent := s1.2.2.2 }

/-- Save route selection, clip-pipeline.ts lines 293-327: when the REST
mode is enabled the REST writer is tried first and the URI writer is the
fallback on failure; when disabled the URI writer is used directly.  The
boolean is the savedViaUri flag of the source. -/
def chooseSave (api : ObsidianApiSettings) (env : PipelineEnv) :
    SaveResult × Bool :=
  if api.enabled then
    if env.saveRest.success then (env.saveRest, false) else (env.saveUri, true)
  else
    (env.saveUri, true)

/-- The saving step and terminal transition, clip-pipeline.ts lines
272-340: compute the content handed to the template renderer, check the
abort signal, persist the saving step, run the two-tier save policy, then
mark the task completed or failed and pick the notification variant. -/
def savePhase (taskId : String) (template : Template)
    (api : ObsidianApiSettings) (env : PipelineEnv) (now : Nat)
    (s : MidState) : RunOutcome :=
  let contentToUse := s.llmContentOutput.getD template.content
  if env.abortBeforeSaving then
    { history := s.history, events := s.events,
      contentToUse := some contentToUse, savedViaUri := none,
      notificationKey := none, properties := s.properties,
      customVars := s.customVars }
  else
    let r3 := updateTaskStep s.history taskId TaskStep.saving
    let save := chooseSave api env
    if save.1.success then
      let r4 := completeTask r3.1 taskId { path := save.1.path } now
      { history := r4.1, events := s.events ++ r3.2.toList ++ r4.2.toList,
        contentToUse := some contentToUse, savedViaUri := some save.2,
        notificationKey :=
          some (if save.2 then "toast.savedViaUri" else "toast.success"),
        properties := s.properties, customVars := s.customVars }
    else
      let msg := if save.1.error != "" then save.1.error
                 else "Failed to save to Obsidian"
      let r4 := failTask r3.1 taskId msg now
      { history := r4.1, events := s.events ++ r3.2.toList ++ r4.2.toList,
        contentToUse := some contentToUse, savedViaUri := none,
        notificationKey := some "toast.error",
        properties := s.properties, customVars := s.customVars }

/-- The full background pipeline of one task. -/
def runClipTask (parse : String → Option (List String))
    (stringify : List String → String) (taskId : String) (template : Template)
    (api : ObsidianApiSettings) (content0 : String)
    (customVars0 : List (String × String)) (env : PipelineEnv) (now : Nat)
    (h0 : TaskHistory) : RunOutcome :=
  match llmPhase parse stringify taskId template content0 customVars0 env h0 with
  | Sum.inl s => savePhase taskId template api env now s
  | Sum.inr o => o

/-! Task creation, from src/background/clip-pipeline.ts (startClipTask).
Tab lookup, page extraction and domain computation are external; their
results enter as parameters.  The source accesses a template field of an
undefined template set when the stored set list is empty, which rejects the
returned promise just as the explicit throws do; both rejections are the
same error value here. -/

structure StartOk where
  task : ClipTask
  template : Template
deriving DecidableEq

def startClipTask (tabUrl : String) (vaultName : String)
    (api : ObsidianApiSettings) (tset : TemplateSettings)
    (templateId : Option String) (pageInfo : TaskPageInfo) (isYouTube : Bool)
    (taskId : String) (now : Nat) : Except String StartOk :=
  if tabUrl = "" then
    Except.error "No URL found for active tab"
  else if vaultName = "" then
    Except.error "Vault name not configured. Please set it in settings."
  else if api.enabled ∧ api.apiKey = "" then
    Except.error "Obsidian API key not configured. Please set it in settings."
  else
    let defaultSet := tset.sets.find? (fun s => s.id == tset.defaultSetId)
    let base := defaultSet.orElse (fun _ => tset.sets.head?)
    let chosen :=
      match templateId with
      | some tid =>
          match tset.sets.find? (fun (s : TemplateSet) => s.id == tid) with
          | some s => some s
          | none => base
      | none => base
    match chosen with
    | none => Except.error "No template found. Please configure templates in settings."
    | some ts =>
        let template := if isYouTube then ts.youtubeTemplate else ts.webTemplate
        Except.ok
          { task := { id := taskId
                      status := TaskStatus.running
                      step := some TaskStep.extracting
                      pageInfo := pageInfo
                      templateName := template.name
                      createdAt := now
                      llmEnabled :=
                        { content := template.useLLM && template.llmGenerateContent
                          tags := template.useLLM && template.llmGenerateTags } }
            template := template }

/-- Broadcast snapshots observed over a whole run: the creation upsert
broadcast followed by the pipeline events. -/
def clipRunBroadcasts (parse : String → Option (List String))
    (stringify : List String → String) (st : StartOk)
    (api : ObsidianApiSettings) (content0 : String)
    (customVars0 : List (String × String)) (env : PipelineEnv) (now : Nat)
    (h0 : TaskHistory) : List ClipTask :=
  st.task :: (runClipTask parse stringify st.task.id st.template api content0
                customVars0 env now (upsertTask h0 st.task)).events

/-! Storage interleaving model for the read-modify-write of the stored
taskHistory record (task-manager.ts: getTaskHistory then saveTaskHistory).
Each operation is two atomic storage accesses: a read of the whole record
into a local copy and a write of the locally mutated copy.  An operation
whose task lookup fails performs no write (the source skips the save);
that case is the none value of the op.  A schedule is the order in which
the two in-flight operations take their next access. -/

def completeWrite (taskId : String) (result : TaskResult) (now : Nat)
    (h : TaskHistory) : Option TaskHistory :=
  match h.tasks.find? (fun t => t.id == taskId) with
  | none => none
  | some _ => some (completeTask h taskId result now).1

structure RmwState where
  store : TaskHistory
  readA : Option TaskHistory
  readB : Option TaskHistory
  doneA : Bool
  doneB : Bool
deriving DecidableEq

def rmwStep (opA opB : TaskHistory → Option TaskHistory) (s : RmwState)
    (isA : Bool) : RmwState :=
  if isA then
    match s.readA, s.doneA with
    | none, false => { s with readA := some s.store }
    | some v, false => { s with store := (opA v).getD s.store, doneA := true }
    | _, _ => s
  else
    match s.readB, s.doneB with
    | none, false => { s with readB := some s.store }
    | some v, false => { s with store := (opB v).getD s.store, doneB := true }
    | _, _ => s

def rmwRun (opA opB : TaskHistory → Option TaskHistory) (sched : List Bool)
    (h0 : TaskHistory) : RmwState :=
  sched.foldl (rmwStep opA opB)
    { store := h0, readA := none, readB := none, doneA := false, doneB := false }

/-! Concrete tag codec used to instantiate the parse and stringify
parameters on closed inputs: a comma separated representation with the
empty JSON array for the empty list. -/

def splitCommaAux : List Char → List Char → List String
  | [], acc => [String.mk acc.reverse]
  | c :: cs, acc =>
      if c == ',' then String.mk acc.reverse :: splitCommaAux cs []
      else splitCommaAux cs (c :: acc)

def tagParse (s : String) : Option (List String) :=
  if s == "[]" then some [] else some (splitCommaAux s.data [])

def tagJoin (l : List String) : String :=
  if l == [] then "[]" else String.intercalate "," l

/-! Lemmas about setDedup: membership, duplicate freedom, absorption of
already present elements, and idempotence. -/

theorem mem_setDedupAux (a : String) :
    ∀ (l seen : List String), a ∈ setDedupAux seen l ↔ a ∈ l ∧ a ∉ seen := by
  intro l
  induction l with
  | nil => intro seen; simp [setDedupAux]
  | cons x xs ih =>
      intro seen
      by_cases hx : x ∈ seen
      · rw [setDedupAux, if_pos (by simpa using hx)]
        rw [ih]
        constructor
        · rintro ⟨h1, h2⟩; exact ⟨List.mem_cons_of_mem _ h1, h2⟩
        · rintro ⟨h1, h2⟩
          rcases List.mem_cons.mp h1 with rfl | h1
          · exact absurd hx h2
          · exact ⟨h1, h2⟩
      · rw [setDedupAux, if_neg (by simpa using hx)]
        simp only [List.mem_cons, ih]
        constructor
        · rintro (rfl | ⟨h1, h2⟩)
          · exact ⟨Or.inl rfl, hx⟩
          · exact ⟨Or.inr h1, fun hc => h2 (Or.inr hc)⟩
        · rintro ⟨rfl | h1, h2⟩
          · exact Or.inl rfl
          · by_cases hax : a = x
            · exact Or.inl hax
            · exact Or.inr ⟨h1, fun hc => hc.elim hax h2⟩

theorem setDedupAux_nodup :
    ∀ (l seen : List String), (setDedupAux seen l).Nodup := by
  intro l
  induction l with
  | nil => intro seen; simp [setDedupAux]
  | cons x xs ih =>
      intro seen
      by_cases hx : x ∈ seen
      · rw [setDedupAux, if_pos (by simpa using hx)]; exact ih seen
      · rw [setDedupAux, if_neg (by simpa using hx)]
        refine List.nodup_cons.mpr ⟨?_, ih (x :: seen)⟩
        intro hmem
        exact ((mem_setDedupAux x xs (x :: seen)).mp hmem).2 (List.mem_cons_self x seen)

theorem setDedupAux_eq_nil_of_seen :
    ∀ (l seen : List String), (∀ a ∈ l, a ∈ seen) → setDedupAux seen l = [] := by
  intro l
  induction l with
  | nil => intro seen _; rfl
  | cons x xs ih =>
      intro seen h
      rw [setDedupAux, if_pos (by simpa using h x (List.mem_cons_self x xs))]
      exact ih seen (fun a ha => h a (List.mem_cons_of_mem _ ha))

theorem setDedupAux_append_subset :
    ∀ (xs : List String) (seen ys : List String),
      (∀ a ∈ ys, a ∈ xs ∨ a ∈ seen) →
      setDedupAux seen (xs ++ ys) = setDedupAux seen xs := by
  intro xs
  induction xs with
  | nil =>
      intro seen ys h
      rw [List.nil_append, setDedupAux]
      exact setDedupAux_eq_nil_of_seen ys seen
        (fun a ha => (h a ha).resolve_left (by simp))
  | cons x xs' ih =>
      intro seen ys h
      rw [List.cons_append]
      by_cases hx : x ∈ seen
      · rw [setDedupAux, if_pos (by simpa using hx),
            setDedupAux, if_pos (by simpa using hx)]
        refine ih seen ys (fun a ha => ?_)
        rcases h a ha with h1 | h1
        · rcases List.mem_cons.mp h1 with rfl | h1
          · exact Or.inr hx
          · exact Or.inl h1
        · exact Or.inr h1
      · rw [setDedupAux, if_neg (by simpa using hx),
            setDedupAux, if_neg (by simpa using hx)]
        congr 1
        refine ih (x :: seen) ys (fun a ha => ?_)
        rcases h a ha with h1 | h1
        · rcases List.mem_cons.mp h1 with rfl | h1
          · exact Or.inr (List.mem_cons_self a seen)
          · exact Or.inl h1
        · exact Or.inr (List.mem_cons_of_mem _ h1)

theorem setDedupAux_eq_self :
    ∀ (l seen : List String), l.Nodup → (∀ a ∈ l, a ∉ seen) →
      setDedupAux seen l = l := by
  intro l
  induction l with
  | nil => intro seen _ _; rfl
  | cons x xs ih =>
      intro seen hnd hns
      rw [setDedupAux, if_neg (by simpa using hns x (List.mem_cons_self x xs))]
      congr 1
      refine ih (x :: seen) (List.nodup_cons.mp hnd).2 (fun a ha => ?_)
      simp only [List.mem_cons, not_or]
      exact ⟨fun hax => (List.nodup_cons.mp hnd).1 (hax ▸ ha),
             hns a (List.mem_cons_of_mem _ ha)⟩

theorem mem_setDedup (a : String) (l : List String) :
    a ∈ setDedup l ↔ a ∈ l := by
  rw [setDedup, mem_setDedupAux]; simp

theorem setDedup_idem (l : List String) : setDedup (setDedup l) = setDedup l := by
  rw [setDedup]
  exact setDedupAux_eq_self _ [] (setDedupAux_nodup l []) (by simp)

theorem setDedup_append_subset (xs ys : List String)
    (h : ∀ a ∈ ys, a ∈ xs) : setDedup (xs ++ ys) = setDedup xs := by
  rw [setDedup, setDedup]
  exact setDedupAux_append_subset xs [] ys (fun a ha => Or.inl (h a ha))

/-! Lemmas about the task manager operations. -/

theorem applyToTask_not_found (h : TaskHistory) (taskId : String)
    (g : ClipTask → ClipTask)
    (hf : h.tasks.find? (fun t => t.id == taskId) = none) :
    applyToTask h taskId g = (h, none) := by
  rw [applyToTask, hf]

theorem applyToTask_found (h : TaskHistory) (taskId : String)
    (g : ClipTask → ClipTask) (t : ClipTask)
    (hf : h.tasks.find? (fun t => t.id == taskId) = some t) :
    applyToTask h taskId g = (histSet h taskId (g t), some (g t)) := by
  rw [applyToTask, hf]

@[simp] theorem taskAtStep_id (t : ClipTask) (s : TaskStep) :
    (taskAtStep t s).id = t.id := rfl

@[simp] theorem taskAtStep_status (t : ClipTask) (s : TaskStep) :
    (taskAtStep t s).status = t.status := rfl

@[simp] theorem taskAtStep_error (t : ClipTask) (s : TaskStep) :
    (taskAtStep t s).error = t.error := rfl

@[simp] theorem taskAtStep_step (t : ClipTask) (s : TaskStep) :
    (taskAtStep t s).step = some s := rfl

@[simp] theorem taskCompleted_id (t : ClipTask) (r : TaskResult) (n : Nat) :
    (taskCompleted t r n).id = t.id := rfl

@[simp] theorem taskCompleted_status (t : ClipTask) (r : TaskResult) (n : Nat) :
    (taskCompleted t r n).status = TaskStatus.success := rfl

@[simp] theorem taskCompleted_step (t : ClipTask) (r : TaskResult) (n : Nat) :
    (taskCompleted t r n).step = some TaskStep.done := rfl

@[simp] theorem taskCompleted_error (t : ClipTask) (r : TaskResult) (n : Nat) :
    (taskCompleted t r n).error = t.error := rfl

@[simp] theorem taskCompleted_result (t : ClipTask) (r : TaskResult) (n : Nat) :
    (taskCompleted t r n).result = some r := rfl

@[simp] theorem taskFailed_id (t : ClipTask) (m : String) (n : Nat) :
    (taskFailed t m n).id = t.id := rfl

@[simp] theorem taskFailed_status (t : ClipTask) (m : String) (n : Nat) :
    (taskFailed t m n).status = TaskStatus.error := rfl

@[simp] theorem taskCancelled_id (t : ClipTask) (n : Nat) :
    (taskCancelled t n).id = t.id := rfl

@[simp] theorem taskCancelled_status (t : ClipTask) (n : Nat) :
    (taskCancelled t n).status = TaskStatus.cancelled := rfl

theorem find?_modifyFirst_const {α : Type} (p : α → Bool) (a : α) :
    ∀ (l : List α) (t : α), l.find? p = some t → p a = true →
      (modifyFirst p (fun _ => a) l).find? p = some a := by
  intro l
  induction l with
  | nil => intro t hf _; simp at hf
  | cons x xs ih =>
      intro t hf hpa
      by_cases hx : p x = true
      · rw [modifyFirst, if_pos hx]
        exact List.find?_cons_of_pos _ hpa
      · rw [modifyFirst, if_neg hx]
        rw [List.find?_cons_of_neg _ (by simpa using hx)]
        rw [List.find?_cons_of_neg _ (by simpa using hx)] at hf
        exact ih t hf hpa

theorem find?_task_id {l : List ClipTask} {taskId : String} {t : ClipTask}
    (hf : l.find? (fun u => u.id == taskId) = some t) :
    (t.id == taskId) = true := by
  have h := List.find?_some hf
  simpa using h

theorem find?_histSet (h : TaskHistory) (taskId : String) (t2 t : ClipTask)
    (hf : h.tasks.find? (fun u => u.id == taskId) = some t)
    (hp : (t2.id == taskId) = true) :
    (histSet h taskId t2).tasks.find? (fun u => u.id == taskId) = some t2 :=
  find?_modifyFirst_const _ _ _ _ hf hp

theorem modifyFirst_of_find?_none {α : Type} (p : α → Bool) (f : α → α) :
    ∀ (l : List α), l.find? p = none → modifyFirst p f l = l := by
  intro l
  induction l with
  | nil => intro _; rfl
  | cons x xs ih =>
      intro hf
      rcases List.find?_eq_none.mp hf x (List.mem_cons_self x xs) with hx
      rw [modifyFirst, if_neg (by simpa using hx)]
      refine congrArg (x :: ·) (ih ?_)
      exact List.find?_eq_none.mpr
        (fun a ha => List.find?_eq_none.mp hf a (List.mem_cons_of_mem _ ha))

/-! Normal forms of the pipeline phases when the cancellation signal is
not aborted and the task is present in the stored history. -/

def contentHit (template : Template) (env : PipelineEnv) : Bool :=
  template.useLLM && template.llmGenerateContent &&
    (env.llmContent.success && env.llmContent.content != "")

def tagsHit (template : Template) (env : PipelineEnv) : Bool :=
  template.useLLM && template.llmGenerateTags &&
    (env.llmTags.success && env.llmTags.content != "")

def llmOut (template : Template) (env : PipelineEnv) : Option String :=
  if contentHit template env then some env.llmContent.content else none

def llmTask1 (template : Template) (t : ClipTask) : ClipTask :=
  if template.useLLM && template.llmGenerateContent
  then taskAtStep t TaskStep.llm_content else t

def llmMidTask (template : Template) (t : ClipTask) : ClipTask :=
  if template.useLLM && template.llmGenerateTags
  then taskAtStep (llmTask1 template t) TaskStep.llm_tags
  else llmTask1 template t

def llmMidHistory (template : Template) (taskId : String) (t : ClipTask)
    (h0 : TaskHistory) : TaskHistory :=
  let h1 := if template.useLLM && template.llmGenerateContent
            then histSet h0 taskId (taskAtStep t TaskStep.llm_content) else h0
  if template.useLLM && template.llmGenerateTags
  then histSet h1 taskId (taskAtStep (llmTask1 template t) TaskStep.llm_tags)
  else h1

def llmEvents (template : Template) (t : ClipTask) : List ClipTask :=
  (if template.useLLM && template.llmGenerateContent
   then [taskAtStep t TaskStep.llm_content] else []) ++
  (if template.useLLM && template.llmGenerateTags
   then [taskAtStep (llmTask1 template t) TaskStep.llm_tags] else [])

def llmProps (parse : String → Option (List String))
    (stringify : List String → String) (template : Template)
    (env : PipelineEnv) : List TemplateProperty :=
  if tagsHit template env then
    modifyFirst (fun p => p.key == "tags" && p.inputType == "tags")
      (fun p => { p with
                  value := mergeTagsValue parse stringify p.value
                             (jsTrim env.llmTags.content) })
      template.properties
  else template.properties

def llmCustomVars (customVars0 : List (String × String)) (template : Template)
    (env : PipelineEnv) : List (String × String) :=
  if tagsHit template env
  then customVars0 ++ [("llmTags", jsTrim env.llmTags.content)]
  else customVars0

theorem llmPhase_no_abort (parse : String → Option (List String))
    (stringify : List String → String) (taskId : String) (template : Template)
    (content0 : String) (customVars0 : List (String × String))
    (env : PipelineEnv) (h0 : TaskHistory) (t0 : ClipTask)
    (hac : env.abortBeforeContent = false)
    (hat : env.abortBeforeTags = false)
    (hf : h0.tasks.find? (fun u => u.id == taskId) = some t0) :
    llmPhase parse stringify taskId template content0 customVars0 env h0 =
      Sum.inl { history := llmMidHistory template taskId t0 h0,
                events := llmEvents template t0,
                properties := llmProps parse stringify template env,
                customVars := llmCustomVars customVars0 template env,
                llmContentOutput := llmOut template env,
                ctxContent := (llmOut template env).getD content0 } := by
  have hid0 : (t0.id == taskId) = true := find?_task_id hf
  by_cases hc : (template.useLLM && template.llmGenerateContent) = true
  · have h1 : updateTaskStep h0 taskId TaskStep.llm_content =
        (histSet h0 taskId (taskAtStep t0 TaskStep.llm_content),
         some (taskAtStep t0 TaskStep.llm_content)) :=
      applyToTask_found _ _ _ _ hf
    have h2 : (histSet h0 taskId (taskAtStep t0 TaskStep.llm_content)).tasks.find?
        (fun u => u.id == taskId) = some (taskAtStep t0 TaskStep.llm_content) :=
      find?_histSet _ _ _ _ hf (by simpa using hid0)
    by_cases ht : (template.useLLM && template.llmGenerateTags) = true
    · have h3 : updateTaskStep
          (histSet h0 taskId (taskAtStep t0 TaskStep.llm_content)) taskId
          TaskStep.llm_tags =
          (histSet (histSet h0 taskId (taskAtStep t0 TaskStep.llm_content)) taskId
             (taskAtStep (taskAtStep t0 TaskStep.llm_content) TaskStep.llm_tags),
           some (taskAtStep (taskAtStep t0 TaskStep.llm_content) TaskStep.llm_tags)) :=
        applyToTask_found _ _ _ _ h2
      by_cases hcs : (env.llmContent.success && env.llmContent.content != "") = true
      · by_cases hts : (env.llmTags.success && env.llmTags.content != "") = true
        · simp [llmPhase, hc, ht, hac, hat, h1, h3, hcs, hts, llmMidHistory,
                llmEvents, llmProps, llmCustomVars, llmOut, llmTask1, llmMidTask,
                contentHit, tagsHit]
        · simp [llmPhase, hc, ht, hac, hat, h1, h3, hcs, hts, llmMidHistory,
                llmEvents, llmProps, llmCustomVars, llmOut, llmTask1, llmMidTask,
                contentHit, tagsHit]
      · by_cases hts : (env.llmTags.success && env.llmTags.content != "") = true
        · simp [llmPhase, hc, ht, hac, hat, h1, h3, hcs, hts, llmMidHistory,
                llmEvents, llmProps, llmCustomVars, llmOut, llmTask1, llmMidTask,
                contentHit, tagsHit]
        · simp [llmPhase, hc, ht, hac, hat, h1, h3, hcs, hts, llmMidHistory,
                llmEvents, llmProps, llmCustomVars, llmOut, llmTask1, llmMidTask,
                contentHit, tagsHit]
    · by_cases hcs : (env.llmContent.success && env.llmContent.content != "") = true
      · simp [llmPhase, hc, ht, hac, hat, h1, hcs, llmMidHistory,
              llmEvents, llmProps, llmCustomVars, llmOut, llmTask1, llmMidTask,
              contentHit, tagsHit]
      · simp [llmPhase, hc, ht, hac, hat, h1, hcs, llmMidHistory,
              llmEvents, llmProps, llmCustomVars, llmOut, llmTask1, llmMidTask,
              contentHit, tagsHit]
  · by_cases ht : (template.useLLM && template.llmGenerateTags) = true
    · have h3 : updateTaskStep h0 taskId TaskStep.llm_tags =
          (histSet h0 taskId (taskAtStep t0 TaskStep.llm_tags),
           some (taskAtStep t0 TaskStep.llm_tags)) :=
        applyToTask_found _ _ _ _ hf
      by_cases hts : (env.llmTags.success && env.llmTags.content != "") = true
      · simp [llmPhase, hc, ht, hac, hat, h3, hts, llmMidHistory,
              llmEvents, llmProps, llmCustomVars, llmOut, llmTask1, llmMidTask,
              contentHit, tagsHit]
      · simp [llmPhase, hc, ht, hac, hat, h3, hts, llmMidHistory,
              llmEvents, llmProps, llmCustomVars, llmOut, llmTask1, llmMidTask,
              contentHit, tagsHit]
    · simp [llmPhase, hc, ht, hac, hat, llmMidHistory,
            llmEvents, llmProps, llmCustomVars, llmOut, llmTask1, llmMidTask,
            contentHit, tagsHit]


@[simp] theorem llmTask1_id (template : Template) (t : ClipTask) :
    (llmTask1 template t).id = t.id := by
  rw [llmTask1]; split <;> simp

@[simp] theorem llmTask1_error (template : Template) (t : ClipTask) :
    (llmTask1 template t).error = t.error := by
  rw [llmTask1]; split <;> simp

@[simp] theorem llmMidTask_id (template : Template) (t : ClipTask) :
    (llmMidTask template t).id = t.id := by
  rw [llmMidTask]; split <;> simp

@[simp] theorem llmMidTask_error (template : Template) (t : ClipTask) :
    (llmMidTask template t).error = t.error := by
  rw [llmMidTask]; split <;> simp

theorem find?_llmMidHistory (template : Template) (taskId : String)
    (t0 : ClipTask) (h0 : TaskHistory)
    (hf : h0.tasks.find? (fun u => u.id == taskId) = some t0) :
    (llmMidHistory template taskId t0 h0).tasks.find? (fun u => u.id == taskId) =
      some (llmMidTask template t0) := by
  have hid0 : (t0.id == taskId) = true := find?_task_id hf
  rw [llmMidHistory, llmMidTask, llmTask1]
  by_cases hc : (template.useLLM && template.llmGenerateContent) = true
  · have h2 := find?_histSet h0 taskId (taskAtStep t0 TaskStep.llm_content) t0 hf
      (by simpa using hid0)
    by_cases ht : (template.useLLM && template.llmGenerateTags) = true
    · simp only [hc, ht, if_true]
      exact find?_histSet _ taskId _ _ h2 (by simpa using hid0)
    · simp only [hc, ht, if_true]
      simpa [ht] using h2
  · by_cases ht : (template.useLLM && template.llmGenerateTags) = true
    · simp only [hc, ht, if_true, if_false]
      exact find?_histSet h0 taskId _ t0 hf (by simpa using hid0)
    · simpa [hc, ht] using hf

theorem savePhase_success (taskId : String) (template : Template)
    (api : ObsidianApiSettings) (env : PipelineEnv) (now : Nat) (s : MidState)
    (t : ClipTask)
    (hf : s.history.tasks.find? (fun u => u.id == taskId) = some t)
    (habort : env.abortBeforeSaving = false)
    (hsave : (chooseSave api env).1.success = true) :
    savePhase taskId template api env now s =
      { history := histSet (histSet s.history taskId (taskAtStep t TaskStep.saving))
          taskId (taskCompleted t { path := (chooseSave api env).1.path } now),
        events := s.events ++ [taskAtStep t TaskStep.saving,
          taskCompleted t { path := (chooseSave api env).1.path } now],
        contentToUse := some (s.llmContentOutput.getD template.content),
        savedViaUri := some (chooseSave api env).2,
        notificationKey :=
          some (if (chooseSave api env).2 then "toast.savedViaUri" else "toast.success"),
        properties := s.properties,
        customVars := s.customVars } := by
  have h1 : updateTaskStep s.history taskId TaskStep.saving =
      (histSet s.history taskId (taskAtStep t TaskStep.saving),
       some (taskAtStep t TaskStep.saving)) :=
    applyToTask_found _ _ _ _ hf
  have h2 : (histSet s.history taskId (taskAtStep t TaskStep.saving)).tasks.find?
      (fun u => u.id == taskId) = some (taskAtStep t TaskStep.saving) :=
    find?_histSet _ _ _ _ hf (by simpa using find?_task_id hf)
  have h3 : completeTask (histSet s.history taskId (taskAtStep t TaskStep.saving))
      taskId { path := (chooseSave api env).1.path } now =
      (histSet (histSet s.history taskId (taskAtStep t TaskStep.saving)) taskId
         (taskCompleted (taskAtStep t TaskStep.saving)
           { path := (chooseSave api env).1.path } now),
       some (taskCompleted (taskAtStep t TaskStep.saving)
         { path := (chooseSave api env).1.path } now)) :=
    applyToTask_found _ _ _ _ h2
  have hTT : taskCompleted (taskAtStep t TaskStep.saving)
      { path := (chooseSave api env).1.path } now =
      taskCompleted t { path := (chooseSave api env).1.path } now := rfl
  rw [savePhase, habort]
  simp only [Bool.false_eq_true, if_false, h1, h3, hTT, hsave, if_true]
  simp

/-- Normal form of a whole pipeline run that is never aborted and whose
chosen save route succeeds: the task present in the stored history moves
through the enabled optional steps, then saving, then is completed. -/
theorem runClipTask_success (parse : String → Option (List String))
    (stringify : List String → String) (taskId : String) (template : Template)
    (api : ObsidianApiSettings) (content0 : String)
    (customVars0 : List (String × String)) (env : PipelineEnv) (now : Nat)
    (h0 : TaskHistory) (t0 : ClipTask)
    (hac : env.abortBeforeContent = false)
    (hat : env.abortBeforeTags = false)
    (has : env.abortBeforeSaving = false)
    (hf : h0.tasks.find? (fun u => u.id == taskId) = some t0)
    (hsave : (chooseSave api env).1.success = true) :
    runClipTask parse stringify taskId template api content0 customVars0 env
        now h0 =
      { history := histSet
          (histSet (llmMidHistory template taskId t0 h0) taskId
            (taskAtStep (llmMidTask template t0) TaskStep.saving))
          taskId (taskCompleted (llmMidTask template t0)
            { path := (chooseSave api env).1.path } now),
        events := llmEvents template t0 ++
          [taskAtStep (llmMidTask template t0) TaskStep.saving,
           taskCompleted (llmMidTask template t0)
             { path := (chooseSave api env).1.path } now],
        contentToUse := some ((llmOut template env).getD template.content),
        savedViaUri := some (chooseSave api env).2,
        notificationKey :=
          some (if (chooseSave api env).2 then "toast.savedViaUri" else "toast.success"),
        properties := llmProps parse stringify template env,
        customVars := llmCustomVars customVars0 template env } := by
  rw [runClipTask,
      llmPhase_no_abort parse stringify taskId template content0 customVars0
        env h0 t0 hac hat hf]
  exact savePhase_success taskId template api env now _ (llmMidTask template t0)
        (find?_llmMidHistory template taskId t0 h0 hf) has hsave


theorem map_modifyFirst_const {α β : Type} (p : α → Bool) (a : α) (g : α → β) :
    ∀ (l : List α) (t : α), l.find? p = some t → g a = g t →
      (modifyFirst p (fun _ => a) l).map g = l.map g := by
  intro l
  induction l with
  | nil => intro t hf _; simp at hf
  | cons x xs ih =>
      intro t hf hg
      by_cases hx : p x = true
      · rw [List.find?_cons_of_pos _ hx] at hf
        injection hf with hf
        rw [modifyFirst, if_pos hx]
        simp [hg, hf]
      · rw [List.find?_cons_of_neg _ (by simpa using hx)] at hf
        rw [modifyFirst, if_neg hx]
        simp only [List.map_cons]
        rw [ih t hf hg]

theorem setDedup_eq_nil_iff (l : List String) : setDedup l = [] ↔ l = [] := by
  cases l with
  | nil => exact ⟨fun _ => rfl, fun _ => rfl⟩
  | cons x xs => simp [setDedup, setDedupAux]

theorem findIndex_eq_none {α : Type} (p : α → Bool) :
    ∀ (l : List α), (∀ u ∈ l, p u = false) → findIndex p l = none := by
  intro l
  induction l with
  | nil => intro _; rfl
  | cons x xs ih =>
      intro h
      rw [findIndex, if_neg (by simp [h x (List.mem_cons_self x xs)])]
      rw [ih (fun u hu => h u (List.mem_cons_of_mem _ hu))]
      rfl

theorem findIndex_lt_length {α : Type} (p : α → Bool) :
    ∀ (l : List α) (i : Nat), findIndex p l = some i → i < l.length := by
  intro l
  induction l with
  | nil => intro i h; simp [findIndex] at h
  | cons x xs ih =>
      intro i h
      rw [findIndex] at h
      by_cases hx : p x = true
      · rw [if_pos hx] at h
        injection h with h
        simp only [List.length_cons]
        omega
      · rw [if_neg hx] at h
        rcases Option.map_eq_some'.mp h with ⟨j, hj, hji⟩
        have := ih j hj
        simp only [List.length_cons]
        omega

theorem runClipTask_success_find (parse : String → Option (List String))
    (stringify : List String → String) (taskId : String) (template : Template)
    (api : ObsidianApiSettings) (content0 : String)
    (customVars0 : List (String × String)) (env : PipelineEnv) (now : Nat)
    (h0 : TaskHistory) (t0 : ClipTask)
    (hac : env.abortBeforeContent = false)
    (hat : env.abortBeforeTags = false)
    (has : env.abortBeforeSaving = false)
    (hf : h0.tasks.find? (fun u => u.id == taskId) = some t0)
    (hsave : (chooseSave api env).1.success = true) :
    (runClipTask parse stringify taskId template api content0 customVars0 env
        now h0).history.tasks.find? (fun u => u.id == taskId) =
      some (taskCompleted (llmMidTask template t0)
        { path := (chooseSave api env).1.path } now) := by
  rw [runClipTask_success parse stringify taskId template api content0
        customVars0 env now h0 t0 hac hat has hf hsave]
  have hmid := find?_llmMidHistory template taskId t0 h0 hf
  have hid : (t0.id == taskId) = true := find?_task_id hf
  have h2 := find?_histSet (llmMidHistory template taskId t0 h0) taskId
    (taskAtStep (llmMidTask template t0) TaskStep.saving) (llmMidTask template t0)
    hmid (by simpa using hid)
  exact find?_histSet _ taskId _ _ h2 (by simpa using hid)


theorem startClipTask_ok_inv (tabUrl vaultName : String)
    (api : ObsidianApiSettings) (tset : TemplateSettings)
    (templateId : Option String) (pageInfo : TaskPageInfo) (isYouTube : Bool)
    (taskId : String) (now : Nat) (st : StartOk)
    (hok : startClipTask tabUrl vaultName api tset templateId pageInfo
             isYouTube taskId now = Except.ok st) :
    st.task.status = TaskStatus.running ∧
    st.task.step = some TaskStep.extracting ∧
    st.task.id = taskId ∧
    st.task.llmEnabled.content =
      (st.template.useLLM && st.template.llmGenerateContent) ∧
    st.task.llmEnabled.tags =
      (st.template.useLLM && st.template.llmGenerateTags) := by
  rw [startClipTask] at hok
  split at hok
  · simp at hok
  split at hok
  · simp at hok
  split at hok
  · simp at hok
  split at hok
  · split at hok
    · injection hok with hok
      subst hok
      exact ⟨rfl, rfl, rfl, rfl, rfl⟩
    · dsimp only at hok
      rcases hopt : (List.find? (fun s => s.id == tset.defaultSetId)
          tset.sets).orElse (fun x => tset.sets.head?) with _ | ts2
      · rw [hopt] at hok
        simp at hok
      · rw [hopt] at hok
        dsimp only at hok
        injection hok with hok
        subst hok
        exact ⟨rfl, rfl, rfl, rfl, rfl⟩
  · dsimp only at hok
    rcases hopt : (List.find? (fun s => s.id == tset.defaultSetId)
        tset.sets).orElse (fun x => tset.sets.head?) with _ | ts2
    · rw [hopt] at hok
      simp at hok
    · rw [hopt] at hok
      dsimp only at hok
      injection hok with hok
      subst hok
      exact ⟨rfl, rfl, rfl, rfl, rfl⟩

theorem upsertTask_fresh (h : TaskHistory) (task : ClipTask)
    (hfresh : ∀ u ∈ h.tasks, (u.id == task.id) = false)
    (hcap : h.tasks.length < h.maxTasks) :
    (upsertTask h task).tasks = task :: h.tasks := by
  rw [upsertTask, findIndex_eq_none _ _ hfresh]
  simp only
  rw [if_neg (by simp only [List.length_cons]; omega)]


/-! Concrete fixtures used by counterexamples and witnesses. -/

def pageInfoX : TaskPageInfo :=
  { title := "t", url := "u", domain := "d", isYouTube := false }

def runningTask (id : String) : ClipTask :=
  { id := id, status := TaskStatus.running, step := some TaskStep.saving,
    pageInfo := pageInfoX, templateName := "T", createdAt := 0,
    llmEnabled := { content := false, tags := false } }

def histAB : TaskHistory :=
  { tasks := [runningTask "a", runningTask "b"], maxTasks := 10 }

def histRunningA : TaskHistory :=
  { tasks := [runningTask "a"], maxTasks := 10 }

def histCancelledA : TaskHistory :=
  { tasks := [{ runningTask "a" with status := TaskStatus.cancelled }],
    maxTasks := 10 }

/-- C1: with the read-modify-write persistence of task-manager.ts, the
interleaving in which both completions read the stored history before
either write lands loses the first write: after both operations complete,
task a is still recorded as running even though its completeTask ran. -/
theorem c1_lost_update_on_interleaving :
    (rmwRun (completeWrite "a" { path := "pa" } 5)
        (completeWrite "b" { path := "pb" } 6)
        [true, false, true, false] histAB).doneA = true ∧
    (rmwRun (completeWrite "a" { path := "pa" } 5)
        (completeWrite "b" { path := "pb" } 6)
        [true, false, true, false] histAB).doneB = true ∧
    ((rmwRun (completeWrite "a" { path := "pa" } 5)
        (completeWrite "b" { path := "pb" } 6)
        [true, false, true, false] histAB).store.tasks.map
      (fun t => (t.id, t.status))) =
      [("a", TaskStatus.running), ("b", TaskStatus.success)] := by decide

/-- C2 counterexample: completeTask invoked with the id of a task whose
persisted status is already terminal (cancelled) overwrites that status
with success, so a terminal task can transition again. -/
theorem c2_counterexample :
    ((histCancelledA.tasks.find? (fun u => u.id == "a")).map ClipTask.status =
       some TaskStatus.cancelled) ∧
    (((completeTask histCancelledA "a" { path := "p" } 5).1.tasks.find?
        (fun u => u.id == "a")).map ClipTask.status = some TaskStatus.success) := by
  decide

/-- C2 amended: cancelTask never changes a task that is not running and
updateTaskStep never changes any status, but completeTask and failTask do
not guard on the current status: applied to any present task id they
overwrite the status with success and error respectively. -/
theorem c2_terminal_stability_amended :
    (∀ (registry : List String) (h : TaskHistory) (taskId : String) (now : Nat)
       (t : ClipTask),
       h.tasks.find? (fun u => u.id == taskId) = some t →
       t.status ≠ TaskStatus.running →
       (cancelTask registry h taskId now).history = h ∧
       (cancelTask registry h taskId now).returned = false) ∧
    (∀ (h : TaskHistory) (taskId : String) (step : TaskStep),
       ((updateTaskStep h taskId step).1.tasks.map ClipTask.status) =
         h.tasks.map ClipTask.status) ∧
    (∀ (h : TaskHistory) (taskId : String) (r : TaskResult) (now : Nat)
       (t : ClipTask),
       h.tasks.find? (fun u => u.id == taskId) = some t →
       (completeTask h taskId r now).1.tasks.find? (fun u => u.id == taskId) =
         some (taskCompleted t r now) ∧
       (taskCompleted t r now).status = TaskStatus.success) ∧
    (∀ (h : TaskHistory) (taskId : String) (msg : String) (now : Nat)
       (t : ClipTask),
       h.tasks.find? (fun u => u.id == taskId) = some t →
       (failTask h taskId msg now).1.tasks.find? (fun u => u.id == taskId) =
         some (taskFailed t msg now) ∧
       (taskFailed t msg now).status = TaskStatus.error) := by
  refine ⟨?_, ?_, ?_, ?_⟩
  · intro registry h taskId now t hf hst
    constructor
    · simp only [cancelTask, hf]
      rw [if_neg hst]
    · simp only [cancelTask, hf]
      rw [if_neg hst]
  · intro h taskId step
    cases hf : h.tasks.find? (fun u => u.id == taskId) with
    | none => rw [updateTaskStep, applyToTask_not_found _ _ _ hf]
    | some t =>
        rw [updateTaskStep, applyToTask_found _ _ _ _ hf]
        simp only [histSet]
        exact map_modifyFirst_const _ _ ClipTask.status h.tasks t hf (by simp)
  · intro h taskId r now t hf
    rw [completeTask, applyToTask_found _ _ _ _ hf]
    exact ⟨find?_histSet _ _ _ _ hf (by simpa using find?_task_id hf), rfl⟩
  · intro h taskId msg now t hf
    rw [failTask, applyToTask_found _ _ _ _ hf]
    exact ⟨find?_histSet _ _ _ _ hf (by simpa using find?_task_id hf), rfl⟩

theorem c2_terminal_stability_amended_witness :
    ((cancelTask [] histCancelledA "a" 9).history = histCancelledA ∧
     (cancelTask [] histCancelledA "a" 9).returned = false) ∧
    (((updateTaskStep histCancelledA "a" TaskStep.saving).1.tasks.map
        ClipTask.status) = histCancelledA.tasks.map ClipTask.status) ∧
    ((completeTask histCancelledA "a" { path := "p" } 5).1.tasks.find?
       (fun u => u.id == "a") =
       some (taskCompleted { runningTask "a" with status := TaskStatus.cancelled }
         { path := "p" } 5)) := by
  refine ⟨?_, ?_, ?_⟩
  · exact c2_terminal_stability_amended.1 [] histCancelledA "a" 9
      { runningTask "a" with status := TaskStatus.cancelled } (by decide) (by decide)
  · exact c2_terminal_stability_amended.2.1 histCancelledA "a" TaskStep.saving
  · exact (c2_terminal_stability_amended.2.2.1 histCancelledA "a" { path := "p" } 5
      { runningTask "a" with status := TaskStatus.cancelled } (by decide)).1

/-- C9: updateTaskStep, completeTask and failTask called with a task id
absent from the stored history leave the history unchanged and emit no
broadcast. -/
theorem c9_absent_id_is_noop (h : TaskHistory) (taskId : String)
    (step : TaskStep) (r : TaskResult) (msg : String) (now : Nat)
    (hf : h.tasks.find? (fun u => u.id == taskId) = none) :
    updateTaskStep h taskId step = (h, none) ∧
    completeTask h taskId r now = (h, none) ∧
    failTask h taskId msg now = (h, none) :=
  ⟨applyToTask_not_found _ _ _ hf, applyToTask_not_found _ _ _ hf,
   applyToTask_not_found _ _ _ hf⟩

theorem c9_absent_id_is_noop_witness :
    updateTaskStep createDefaultTaskHistory "x" TaskStep.saving =
      (createDefaultTaskHistory, none) ∧
    completeTask createDefaultTaskHistory "x" { path := "p" } 3 =
      (createDefaultTaskHistory, none) ∧
    failTask createDefaultTaskHistory "x" "m" 3 =
      (createDefaultTaskHistory, none) :=
  c9_absent_id_is_noop createDefaultTaskHistory "x" TaskStep.saving
    { path := "p" } "m" 3 (by decide)


/-- C7 counterexample: a task whose persisted status is running but which
has no registered cancellation handle is still cancelled, with cancelTask
returning true and mutating the record, contradicting the claim that a
cancel with no registered handle is a no-op returning false. -/
theorem c7_counterexample :
    (cancelTask [] histRunningA "a" 7).returned = true ∧
    (cancelTask [] histRunningA "a" 7).history ≠ histRunningA := by decide

/-- C7 amended: cancel never errors and is idempotent on the record; a
cancel of a present task whose status is running returns true and flips it
to cancelled stamping completedAt, regardless of handle registration; a
second cancel returns false and leaves the history unchanged; a cancel of
an absent task or of a task not in running status is a no-op on the record
returning false. -/
theorem c7_cancel_idempotent :
    (∀ (registry : List String) (h : TaskHistory) (taskId : String)
       (now now2 : Nat) (t : ClipTask),
       h.tasks.find? (fun u => u.id == taskId) = some t →
       t.status = TaskStatus.running →
       (cancelTask registry h taskId now).returned = true ∧
       (cancelTask registry h taskId now).history.tasks.find?
           (fun u => u.id == taskId) = some (taskCancelled t now) ∧
       (taskCancelled t now).status = TaskStatus.cancelled ∧
       (taskCancelled t now).completedAt = some now ∧
       (cancelTask (cancelTask registry h taskId now).registry
           (cancelTask registry h taskId now).history taskId now2).returned =
         false ∧
       (cancelTask (cancelTask registry h taskId now).registry
           (cancelTask registry h taskId now).history taskId now2).history =
         (cancelTask registry h taskId now).history) ∧
    (∀ (registry : List String) (h : TaskHistory) (taskId : String) (now : Nat)
       (t : ClipTask),
       h.tasks.find? (fun u => u.id == taskId) = some t →
       t.status ≠ TaskStatus.running →
       (cancelTask registry h taskId now).returned = false ∧
       (cancelTask registry h taskId now).history = h) ∧
    (∀ (registry : List String) (h : TaskHistory) (taskId : String) (now : Nat),
       h.tasks.find? (fun u => u.id == taskId) = none →
       (cancelTask registry h taskId now).returned = false ∧
       (cancelTask registry h taskId now).history = h) := by
  refine ⟨?_, ?_, ?_⟩
  · intro registry h taskId now now2 t hf hst
    have key : cancelTask registry h taskId now =
        { registry := if registry.contains taskId
                      then registry.filter (fun x => !(x == taskId)) else registry
          history := histSet h taskId (taskCancelled t now)
          broadcast := some (taskCancelled t now)
          returned := true
          aborted := registry.contains taskId } := by
      simp only [cancelTask, hf]
      rw [if_pos hst]
    have hfind2 : (histSet h taskId (taskCancelled t now)).tasks.find?
        (fun u => u.id == taskId) = some (taskCancelled t now) :=
      find?_histSet _ _ _ _ hf (by simpa using find?_task_id hf)
    have key2 : ∀ (reg2 : List String),
        cancelTask reg2 (histSet h taskId (taskCancelled t now)) taskId now2 =
        { registry := if reg2.contains taskId
                      then reg2.filter (fun x => !(x == taskId)) else reg2
          history := histSet h taskId (taskCancelled t now)
          broadcast := none
          returned := false
          aborted := reg2.contains taskId } := by
      intro reg2
      simp only [cancelTask, hfind2]
      rw [if_neg (by simp [taskCancelled])]
    rw [key]
    refine ⟨rfl, hfind2, rfl, rfl, ?_, ?_⟩
    · rw [key2]
    · rw [key2]
  · intro registry h taskId now t hf hst
    constructor
    · simp only [cancelTask, hf]
      rw [if_neg hst]
    · simp only [cancelTask, hf]
      rw [if_neg hst]
  · intro registry h taskId now hf
    constructor
    · simp only [cancelTask, hf]
    · simp only [cancelTask, hf]

theorem c7_cancel_idempotent_witness :
    ((cancelTask ["a"] histRunningA "a" 7).returned = true ∧
     (cancelTask ["a"] histRunningA "a" 7).history.tasks.find?
        (fun u => u.id == "a") = some (taskCancelled (runningTask "a") 7) ∧
     (cancelTask (cancelTask ["a"] histRunningA "a" 7).registry
        (cancelTask ["a"] histRunningA "a" 7).history "a" 8).returned = false) ∧
    ((cancelTask [] histCancelledA "a" 9).returned = false ∧
     (cancelTask [] histCancelledA "a" 9).history = histCancelledA) ∧
    ((cancelTask [] createDefaultTaskHistory "a" 9).returned = false) := by
  refine ⟨?_, ?_, ?_⟩
  · have h1 := c7_cancel_idempotent.1 ["a"] histRunningA "a" 7 8
      (runningTask "a") (by decide) (by decide)
    exact ⟨h1.1, h1.2.1, h1.2.2.2.2.1⟩
  · exact c7_cancel_idempotent.2.1 [] histCancelledA "a" 9
      { runningTask "a" with status := TaskStatus.cancelled } (by decide) (by decide)
  · exact (c7_cancel_idempotent.2.2 [] createDefaultTaskHistory "a" 9 (by decide)).1

/-- C4: inserting a fresh task into a history at capacity places it first,
evicts exactly the oldest (last) entry preserving the order of the rest,
and keeps the length at the capacity; upserting an already present id
replaces that record in place, changing neither the length nor any other
entry. -/
theorem c4_history_cap :
    (∀ (h : TaskHistory) (task : ClipTask),
       (∀ u ∈ h.tasks, (u.id == task.id) = false) →
       h.tasks.length = h.maxTasks →
       (upsertTask h task).tasks = (task :: h.tasks).dropLast ∧
       (upsertTask h task).tasks.length = h.maxTasks) ∧
    (∀ (h : TaskHistory) (task : ClipTask) (i : Nat),
       findIndex (fun t => t.id == task.id) h.tasks = some i →
       (upsertTask h task).tasks = h.tasks.set i task ∧
       (upsertTask h task).tasks.length = h.tasks.length ∧
       (∀ j, j ≠ i → (upsertTask h task).tasks[j]? = h.tasks[j]?) ∧
       (upsertTask h task).tasks[i]? = some task) := by
  constructor
  · intro h task hfresh hlen
    rw [upsertTask, findIndex_eq_none _ _ hfresh]
    simp only
    rw [if_pos (by simp only [List.length_cons]; omega)]
    constructor
    · rw [List.dropLast_eq_take]
      simp only [List.length_cons, hlen, Nat.add_sub_cancel]
    · simp only [List.length_take, List.length_cons]
      omega
  · intro h task i hidx
    have hi := findIndex_lt_length _ _ _ hidx
    rw [upsertTask, hidx]
    refine ⟨rfl, by simp, ?_, ?_⟩
    · intro j hj
      exact List.getElem?_set_ne (Ne.symm hj)
    · exact List.getElem?_set_self hi

theorem c4_history_cap_witness :
    ((upsertTask { tasks := [runningTask "a", runningTask "b"], maxTasks := 2 }
        (runningTask "c")).tasks =
      (runningTask "c" :: [runningTask "a", runningTask "b"]).dropLast ∧
     (upsertTask { tasks := [runningTask "a", runningTask "b"], maxTasks := 2 }
        (runningTask "c")).tasks.length = 2) ∧
    ((upsertTask histAB { runningTask "b" with templateName := "Z" }).tasks =
       histAB.tasks.set 1 { runningTask "b" with templateName := "Z" } ∧
     (upsertTask histAB { runningTask "b" with templateName := "Z" }).tasks[0]? =
       histAB.tasks[0]?) := by
  constructor
  · exact c4_history_cap.1
      { tasks := [runningTask "a", runningTask "b"], maxTasks := 2 }
      (runningTask "c") (by decide) (by decide)
  · have h2 := c4_history_cap.2 histAB
      { runningTask "b" with templateName := "Z" } 1 (by decide)
    exact ⟨h2.1, h2.2.2.1 0 (by decide)⟩


def tmplPlain : Template :=
  { id := "tp", name := "T", folder := "f", filename := "n", properties := [],
    content := "body", useLLM := false, llmGenerateContent := false,
    llmPrompt := "", llmGenerateTags := false, llmTagsPrompt := "" }

def tmplContentLLM : Template :=
  { tmplPlain with useLLM := true, llmGenerateContent := true }

def envPrimaryOk : PipelineEnv :=
  { llmContent := { success := false }, llmTags := { success := false },
    saveRest := { success := true, path := "p" },
    saveUri := { success := true, path := "p" } }

def envFallbackOk : PipelineEnv :=
  { envPrimaryOk with saveRest := { success := false, error := "boom" } }

def noParse : String → Option (List String) := fun _ => none

def noStringify : List String → String := fun _ => ""

/-- C3 counterexample: a run where the primary REST writer succeeds and a
run where it fails and the URI fallback succeeds produce identical
persisted history and identical broadcasts; only the run-local savedViaUri
flag and the notification variant differ, so the terminal result does not
record whether the fallback writer was used. -/
theorem c3_counterexample :
    (runClipTask noParse noStringify "a" tmplPlain
        { enabled := true, apiKey := "k" } "c" [] envPrimaryOk 9
        histRunningA).savedViaUri = some false ∧
    (runClipTask noParse noStringify "a" tmplPlain
        { enabled := true, apiKey := "k" } "c" [] envFallbackOk 9
        histRunningA).savedViaUri = some true ∧
    (runClipTask noParse noStringify "a" tmplPlain
        { enabled := true, apiKey := "k" } "c" [] envPrimaryOk 9
        histRunningA).history =
      (runClipTask noParse noStringify "a" tmplPlain
        { enabled := true, apiKey := "k" } "c" [] envFallbackOk 9
        histRunningA).history ∧
    (runClipTask noParse noStringify "a" tmplPlain
        { enabled := true, apiKey := "k" } "c" [] envPrimaryOk 9
        histRunningA).events =
      (runClipTask noParse noStringify "a" tmplPlain
        { enabled := true, apiKey := "k" } "c" [] envFallbackOk 9
        histRunningA).events := by decide

/-- C3 amended: with the REST mode enabled, a run whose primary writer
succeeds completes the task with the primary path, savedViaUri false and
the toast.success notification; a run whose primary writer fails and whose
URI fallback succeeds completes the task with the fallback path,
savedViaUri true and the distinct toast.savedViaUri notification; the
persisted terminal result records only the resolved path. -/
theorem c3_fallback_accounting_amended
    (parse : String → Option (List String))
    (stringify : List String → String) (taskId : String) (template : Template)
    (api : ObsidianApiSettings) (content0 : String)
    (customVars0 : List (String × String)) (env : PipelineEnv) (now : Nat)
    (h0 : TaskHistory) (t0 : ClipTask)
    (hac : env.abortBeforeContent = false)
    (hat : env.abortBeforeTags = false)
    (has : env.abortBeforeSaving = false)
    (hf : h0.tasks.find? (fun u => u.id == taskId) = some t0)
    (hen : api.enabled = true) :
    (env.saveRest.success = true →
      (runClipTask parse stringify taskId template api content0 customVars0
         env now h0).savedViaUri = some false ∧
      (runClipTask parse stringify taskId template api content0 customVars0
         env now h0).notificationKey = some "toast.success" ∧
      (runClipTask parse stringify taskId template api content0 customVars0
         env now h0).history.tasks.find? (fun u => u.id == taskId) =
        some (taskCompleted (llmMidTask template t0)
          { path := env.saveRest.path } now)) ∧
    (env.saveRest.success = false → env.saveUri.success = true →
      (runClipTask parse stringify taskId template api content0 customVars0
         env now h0).savedViaUri = some true ∧
      (runClipTask parse stringify taskId template api content0 customVars0
         env now h0).notificationKey = some "toast.savedViaUri" ∧
      (runClipTask parse stringify taskId template api content0 customVars0
         env now h0).history.tasks.find? (fun u => u.id == taskId) =
        some (taskCompleted (llmMidTask template t0)
          { path := env.saveUri.path } now)) := by
  constructor
  · intro hrest
    have hch : chooseSave api env = (env.saveRest, false) := by
      rw [chooseSave, if_pos (by simp [hen]), if_pos hrest]
    have hs : (chooseSave api env).1.success = true := by rw [hch]; exact hrest
    refine ⟨?_, ?_, ?_⟩
    · rw [runClipTask_success parse stringify taskId template api content0
            customVars0 env now h0 t0 hac hat has hf hs, hch]
    · rw [runClipTask_success parse stringify taskId template api content0
            customVars0 env now h0 t0 hac hat has hf hs, hch]
      simp
    · have := runClipTask_success_find parse stringify taskId template api
        content0 customVars0 env now h0 t0 hac hat has hf hs
      rw [hch] at this
      exact this
  · intro hrest huri
    have hch : chooseSave api env = (env.saveUri, true) := by
      rw [chooseSave, if_pos (by simp [hen]), if_neg (by simp [hrest])]
    have hs : (chooseSave api env).1.success = true := by rw [hch]; exact huri
    refine ⟨?_, ?_, ?_⟩
    · rw [runClipTask_success parse stringify taskId template api content0
            customVars0 env now h0 t0 hac hat has hf hs, hch]
    · rw [runClipTask_success parse stringify taskId template api content0
            customVars0 env now h0 t0 hac hat has hf hs, hch]
      simp
    · have := runClipTask_success_find parse stringify taskId template api
        content0 customVars0 env now h0 t0 hac hat has hf hs
      rw [hch] at this
      exact this

theorem c3_fallback_accounting_amended_witness :
    ((runClipTask noParse noStringify "a" tmplPlain
        { enabled := true, apiKey := "k" } "c" [] envPrimaryOk 9
        histRunningA).savedViaUri = some false ∧
     (runClipTask noParse noStringify "a" tmplPlain
        { enabled := true, apiKey := "k" } "c" [] envPrimaryOk 9
        histRunningA).notificationKey = some "toast.success") ∧
    ((runClipTask noParse noStringify "a" tmplPlain
        { enabled := true, apiKey := "k" } "c" [] envFallbackOk 9
        histRunningA).savedViaUri = some true ∧
     (runClipTask noParse noStringify "a" tmplPlain
        { enabled := true, apiKey := "k" } "c" [] envFallbackOk 9
        histRunningA).notificationKey = some "toast.savedViaUri") := by
  constructor
  · have h1 := (c3_fallback_accounting_amended noParse noStringify "a" tmplPlain
      { enabled := true, apiKey := "k" } "c" [] envPrimaryOk 9 histRunningA
      (runningTask "a") (by decide) (by decide) (by decide) (by decide)
      (by decide)).1 (by decide)
    exact ⟨h1.1, h1.2.1⟩
  · have h2 := (c3_fallback_accounting_amended noParse noStringify "a" tmplPlain
      { enabled := true, apiKey := "k" } "c" [] envFallbackOk 9 histRunningA
      (runningTask "a") (by decide) (by decide) (by decide) (by decide)
      (by decide)).2 (by decide) (by decide)
    exact ⟨h2.1, h2.2.1⟩

/-- C5: when the content transform step is enabled and the transform
gateway returns a failure, the pipeline continues with the untransformed
content: the content handed to the template renderer is exactly the
template content, the error field of the task is unchanged, and the task
still reaches success when the chosen save route succeeds. -/
theorem c5_transform_failure_degrades_gracefully
    (parse : String → Option (List String))
    (stringify : List String → String) (taskId : String) (template : Template)
    (api : ObsidianApiSettings) (content0 : String)
    (customVars0 : List (String × String)) (env : PipelineEnv) (now : Nat)
    (h0 : TaskHistory) (t0 : ClipTask)
    (hu : template.useLLM = true)
    (hgc : template.llmGenerateContent = true)
    (hfail : env.llmContent.success = false)
    (hac : env.abortBeforeContent = false)
    (hat : env.abortBeforeTags = false)
    (has : env.abortBeforeSaving = false)
    (hf : h0.tasks.find? (fun u => u.id == taskId) = some t0)
    (hsave : (chooseSave api env).1.success = true) :
    (runClipTask parse stringify taskId template api content0 customVars0 env
        now h0).contentToUse = some template.content ∧
    ((runClipTask parse stringify taskId template api content0 customVars0 env
        now h0).history.tasks.find? (fun u => u.id == taskId)).map
      ClipTask.status = some TaskStatus.success ∧
    ((runClipTask parse stringify taskId template api content0 customVars0 env
        now h0).history.tasks.find? (fun u => u.id == taskId)).map
      ClipTask.error = some t0.error := by
  have hout : llmOut template env = none := by
    rw [llmOut, contentHit]
    rw [if_neg (by simp [hfail])]
  refine ⟨?_, ?_, ?_⟩
  · rw [runClipTask_success parse stringify taskId template api content0
          customVars0 env now h0 t0 hac hat has hf hsave]
    simp [hout]
  · rw [runClipTask_success_find parse stringify taskId template api content0
          customVars0 env now h0 t0 hac hat has hf hsave]
    simp
  · rw [runClipTask_success_find parse stringify taskId template api content0
          customVars0 env now h0 t0 hac hat has hf hsave]
    simp

theorem c5_transform_failure_degrades_gracefully_witness :
    (runClipTask noParse noStringify "a" tmplContentLLM
        { enabled := true, apiKey := "k" } "c" [] envPrimaryOk 9
        histRunningA).contentToUse = some tmplContentLLM.content ∧
    ((runClipTask noParse noStringify "a" tmplContentLLM
        { enabled := true, apiKey := "k" } "c" [] envPrimaryOk 9
        histRunningA).history.tasks.find? (fun u => u.id == "a")).map
      ClipTask.status = some TaskStatus.success := by
  have h := c5_transform_failure_degrades_gracefully noParse noStringify "a"
    tmplContentLLM { enabled := true, apiKey := "k" } "c" [] envPrimaryOk 9
    histRunningA (runningTask "a") (by decide) (by decide) (by decide)
    (by decide) (by decide) (by decide) (by decide) (by decide)
  exact ⟨h.1, h.2.1⟩


/-- Second application of the merge over a value that serializes a
de-duplicated list m already containing all new tags returns the same
value. -/
theorem merge_second_pass (parse : String → Option (List String))
    (stringify : List String → String) (m n : List String)
    (hdedup : setDedup m = m)
    (hsub : ∀ a ∈ n, a ∈ m)
    (h1 : jsTrim (stringify m) = stringify m)
    (h2 : stringify m ≠ "")
    (h3 : stringify m = "[]" → m = [])
    (h4 : stringify m ≠ "[]" → parse (stringify m) = some m)
    (hn : m = [] → n = []) :
    stringify (setDedup (existingTagsOf parse (stringify m) ++ n)) =
      stringify m := by
  have hrw : existingTagsOf parse (stringify m) =
      if jsTrim (stringify m) ≠ "" ∧ jsTrim (stringify m) ≠ "[]"
      then (parse (jsTrim (stringify m))).getD [] else [] := rfl
  by_cases hbr : stringify m = "[]"
  · have hm0 := h3 hbr
    have hn0 := hn hm0
    have he : existingTagsOf parse (stringify m) = [] := by
      rw [hrw, h1, if_neg (by simp [hbr])]
    rw [he, hn0]
    rw [hm0]
    rfl
  · have he : existingTagsOf parse (stringify m) = m := by
      rw [hrw, h1, if_pos ⟨h2, hbr⟩, h4 hbr]
      rfl
    rw [he, setDedup_append_subset m n hsub, hdedup]

/-- C6: the merged tags property value is the serialization of the
de-duplicated union of the pre-existing tags and the returned tags, a
response that fails to parse is treated as a single tag, and applying the
merge twice with the same response yields the same value as applying it
once. -/
theorem c6_tag_merge_idempotent (parse : String → Option (List String))
    (stringify : List String → String) (ev g : String)
    (h1 : jsTrim (stringify (setDedup
            (existingTagsOf parse ev ++ newTagsOf parse g))) =
          stringify (setDedup (existingTagsOf parse ev ++ newTagsOf parse g)))
    (h2 : stringify (setDedup (existingTagsOf parse ev ++ newTagsOf parse g)) ≠ "")
    (h3 : stringify (setDedup (existingTagsOf parse ev ++ newTagsOf parse g)) =
            "[]" →
          setDedup (existingTagsOf parse ev ++ newTagsOf parse g) = [])
    (h4 : stringify (setDedup (existingTagsOf parse ev ++ newTagsOf parse g)) ≠
            "[]" →
          parse (stringify (setDedup
            (existingTagsOf parse ev ++ newTagsOf parse g))) =
          some (setDedup (existingTagsOf parse ev ++ newTagsOf parse g))) :
    mergeTagsValue parse stringify ev g =
      stringify (setDedup (existingTagsOf parse ev ++ newTagsOf parse g)) ∧
    (parse g = none → newTagsOf parse g = [g]) ∧
    mergeTagsValue parse stringify (mergeTagsValue parse stringify ev g) g =
      mergeTagsValue parse stringify ev g := by
  refine ⟨rfl, ?_, ?_⟩
  · intro hg
    rw [newTagsOf, hg]
    rfl
  · have hdedup : setDedup (setDedup
        (existingTagsOf parse ev ++ newTagsOf parse g)) =
        setDedup (existingTagsOf parse ev ++ newTagsOf parse g) :=
      setDedup_idem _
    have hsub : ∀ a ∈ newTagsOf parse g,
        a ∈ setDedup (existingTagsOf parse ev ++ newTagsOf parse g) :=
      fun a ha => (mem_setDedup a _).mpr (List.mem_append_right _ ha)
    have hn : setDedup (existingTagsOf parse ev ++ newTagsOf parse g) = [] →
        newTagsOf parse g = [] := by
      intro hm
      have := (setDedup_eq_nil_iff _).mp hm
      exact (List.append_eq_nil.mp this).2
    exact merge_second_pass parse stringify _ _ hdedup hsub h1 h2 h3 h4 hn

theorem c6_tag_merge_idempotent_witness :
    mergeTagsValue tagParse tagJoin "a,b" "b,c" =
      tagJoin (setDedup (existingTagsOf tagParse "a,b" ++
        newTagsOf tagParse "b,c")) ∧
    mergeTagsValue tagParse tagJoin
        (mergeTagsValue tagParse tagJoin "a,b" "b,c") "b,c" =
      mergeTagsValue tagParse tagJoin "a,b" "b,c" := by
  have h := c6_tag_merge_idempotent tagParse tagJoin "a,b" "b,c"
    (by decide) (by decide) (by decide) (by decide)
  exact ⟨h.1, h.2.2⟩


/-- C8: a task started with both optional LLM steps disabled in the
resolved configuration broadcasts exactly the step sequence extracting,
saving, done over its whole run, and never emits a broadcast at step
llm_content or llm_tags. -/
theorem c8_llm_steps_skipped_when_disabled (tabUrl vaultName : String)
    (api : ObsidianApiSettings) (tset : TemplateSettings)
    (templateId : Option String) (pageInfo : TaskPageInfo) (isYouTube : Bool)
    (taskId : String) (now : Nat) (st : StartOk)
    (parse : String → Option (List String)) (stringify : List String → String)
    (apiRun : ObsidianApiSettings) (content0 : String)
    (customVars0 : List (String × String)) (env : PipelineEnv) (now2 : Nat)
    (h0 : TaskHistory)
    (hok : startClipTask tabUrl vaultName api tset templateId pageInfo
             isYouTube taskId now = Except.ok st)
    (hC : st.task.llmEnabled.content = false)
    (hT : st.task.llmEnabled.tags = false)
    (hfresh : ∀ u ∈ h0.tasks, (u.id == st.task.id) = false)
    (hcap : h0.tasks.length < h0.maxTasks)
    (hac : env.abortBeforeContent = false)
    (hat : env.abortBeforeTags = false)
    (has : env.abortBeforeSaving = false)
    (hsave : (chooseSave apiRun env).1.success = true) :
    ((clipRunBroadcasts parse stringify st apiRun content0 customVars0 env
        now2 h0).map (fun t => t.step)) =
      [some TaskStep.extracting, some TaskStep.saving, some TaskStep.done] ∧
    (∀ e ∈ clipRunBroadcasts parse stringify st apiRun content0 customVars0
        env now2 h0,
       e.step ≠ some TaskStep.llm_content ∧ e.step ≠ some TaskStep.llm_tags) := by
  obtain ⟨hstat, hstep, hid, hcont, htags⟩ := startClipTask_ok_inv tabUrl
    vaultName api tset templateId pageInfo isYouTube taskId now st hok
  have hCt : (st.template.useLLM && st.template.llmGenerateContent) = false :=
    hcont.symm.trans hC
  have hTt : (st.template.useLLM && st.template.llmGenerateTags) = false :=
    htags.symm.trans hT
  have hup : (upsertTask h0 st.task).tasks = st.task :: h0.tasks :=
    upsertTask_fresh h0 st.task hfresh hcap
  have hfind : (upsertTask h0 st.task).tasks.find?
      (fun u => u.id == st.task.id) = some st.task := by
    rw [hup]
    exact List.find?_cons_of_pos _ (by simp)
  have hrun := runClipTask_success parse stringify st.task.id st.template
    apiRun content0 customVars0 env now2 (upsertTask h0 st.task) st.task
    hac hat has hfind hsave
  have hev : llmEvents st.template st.task = [] := by
    simp [llmEvents, hCt, hTt]
  have hmid : llmMidTask st.template st.task = st.task := by
    simp [llmMidTask, llmTask1, hCt, hTt]
  rw [clipRunBroadcasts, hrun]
  simp only [hev, hmid, List.nil_append]
  constructor
  · simp [hstep]
  · intro e he
    simp only [List.mem_cons, List.not_mem_nil, or_false] at he
    rcases he with rfl | rfl | rfl
    · rw [hstep]
      exact ⟨by simp, by simp⟩
    · exact ⟨by simp, by simp⟩
    · exact ⟨by simp, by simp⟩

def tsetX : TemplateSettings :=
  { sets := [{ id := "s", name := "S", webTemplate := tmplPlain,
               youtubeTemplate := tmplPlain }],
    defaultSetId := "s" }

theorem c8_llm_steps_skipped_when_disabled_witness :
    ∃ st, startClipTask "u" "v" { enabled := false, apiKey := "" } tsetX none
        pageInfoX false "x" 3 = Except.ok st ∧
      ((clipRunBroadcasts noParse noStringify st
          { enabled := false, apiKey := "" } "c" [] envPrimaryOk 9
          createDefaultTaskHistory).map (fun t => t.step)) =
        [some TaskStep.extracting, some TaskStep.saving, some TaskStep.done] := by
  refine ⟨{ task := { id := "x", status := TaskStatus.running,
                      step := some TaskStep.extracting, pageInfo := pageInfoX,
                      templateName := "T", createdAt := 3,
                      llmEnabled := { content := false, tags := false } },
            template := tmplPlain }, ?_, ?_⟩
  · rfl
  · exact (c8_llm_steps_skipped_when_disabled "u" "v"
      { enabled := false, apiKey := "" } tsetX none pageInfoX false "x" 3 _
      noParse noStringify { enabled := false, apiKey := "" } "c" [] envPrimaryOk
      9 createDefaultTaskHistory rfl (by decide) (by decide)
      (by decide) (by decide) (by decide) (by decide) (by decide)
      (by decide)).1

/-- C10: startClipTask rejects for a missing API key exactly when the
synchronous REST writing mode is enabled; with the mode disabled an empty
key does not prevent task creation, and the save step then uses the URI
handoff writer directly. -/
theorem c10_api_key_gate (tabUrl vaultName : String)
    (api : ObsidianApiSettings) (tset : TemplateSettings)
    (templateId : Option String) (pageInfo : TaskPageInfo) (isYouTube : Bool)
    (taskId : String) (now : Nat) (env : PipelineEnv)
    (hurl : tabUrl ≠ "") (hvault : vaultName ≠ "") :
    (api.enabled = false → tset.sets ≠ [] →
      (startClipTask tabUrl vaultName api tset templateId pageInfo isYouTube
         taskId now).isOk = true) ∧
    (api.enabled = true → api.apiKey = "" →
      startClipTask tabUrl vaultName api tset templateId pageInfo isYouTube
        taskId now =
      Except.error "Obsidian API key not configured. Please set it in settings.") ∧
    (api.enabled = false → chooseSave api env = (env.saveUri, true)) := by
  refine ⟨?_, ?_, ?_⟩
  · intro hen hsets
    rw [startClipTask, if_neg hurl, if_neg hvault,
        if_neg (by simp [hen])]
    have hbase : ∃ b, ((tset.sets.find?
        (fun s => s.id == tset.defaultSetId)).orElse
          (fun x => tset.sets.head?)) = some b := by
      cases hfd : tset.sets.find? (fun s => s.id == tset.defaultSetId) with
      | some s => exact ⟨s, rfl⟩
      | none =>
          cases hs : tset.sets with
          | nil => exact absurd hs hsets
          | cons a l => exact ⟨a, rfl⟩
    obtain ⟨b, hb⟩ := hbase
    cases templateId with
    | none =>
        dsimp only
        rw [hb]
        rfl
    | some tid =>
        dsimp only
        cases hft : tset.sets.find? (fun (s : TemplateSet) => s.id == tid) with
        | some s => rfl
        | none =>
            rw [hb]
            rfl
  · intro hen hkey
    rw [startClipTask, if_neg hurl, if_neg hvault, if_pos ⟨hen, hkey⟩]
  · intro hen
    rw [chooseSave, if_neg (by simp [hen])]

theorem c10_api_key_gate_witness :
    (startClipTask "u" "v" { enabled := false, apiKey := "" } tsetX none
       pageInfoX false "x" 3).isOk = true ∧
    startClipTask "u" "v" { enabled := true, apiKey := "" } tsetX none
       pageInfoX false "x" 3 =
      Except.error "Obsidian API key not configured. Please set it in settings." ∧
    chooseSave { enabled := false, apiKey := "" } envPrimaryOk =
      (envPrimaryOk.saveUri, true) := by
  refine ⟨?_, ?_, ?_⟩
  · exact (c10_api_key_gate "u" "v" { enabled := false, apiKey := "" } tsetX
      none pageInfoX false "x" 3 envPrimaryOk (by decide) (by decide)).1
      (by decide) (by decide)
  · exact (c10_api_key_gate "u" "v" { enabled := true, apiKey := "" } tsetX
      none pageInfoX false "x" 3 envPrimaryOk (by decide) (by decide)).2.1
      (by decide) (by decide)
  · exact (c10_api_key_gate "u" "v" { enabled := false, apiKey := "" } tsetX
      none pageInfoX false "x" 3 envPrimaryOk (by decide) (by decide)).2.2
      (by decide)

end Web2Obsidian
